import Mathlib

/-!
Verification of the MIA market-data dumper core.

Shallow embedding of the stateful incremental-processing engine of the
repository (price normalization, change-detection deduplication, replay
cursor, previous-period aggregation, pressure classification), translated
from `src/extracteur/MIA_Dumper_G3_Core.cpp` and
`src/MIA_Chart_Dumper_patched_VIX_NBCV_Quotes_Final_Corrected.cpp`.

Doubles are modelled as exact rationals (`ℚ`); the single square root of
the aggregator is taken in `ℝ`.
-/

namespace MIA

/-- Epsilon used by `has_changed` and `ShouldWriteData` (1e-9 in the source). -/
def eps : ℚ := 1 / 1000000000

/-- C `fabs`, written explicitly so that the kernel can evaluate it on
concrete rationals. -/
def fabs (x : ℚ) : ℚ := if x < 0 then -x else x

/-- has_changed from MIA_Dumper_G3_Core.cpp: `fabs(a-b) > eps`. -/
def has_changed (a b : ℚ) : Bool := fabs (a - b) > eps

/-! ## Pressure classifier (MIA_Dumper_G3_Core.cpp, NBCV section) -/

/-- Output flags of the order-flow pressure classifier. -/
structure PressureFlags where
  bullish : Bool
  bearish : Bool
deriving DecidableEq, Repr

/-- Decision tree of the NBCV pressure logic (lines 809–831 of
MIA_Dumper_G3_Core.cpp): both flags start at 0; if `totalVolume ≥ min_vol`,
a `delta > 0` branch may set bullish, an `else if (delta < 0)` branch may
set bearish. -/
def pressureDecision (delta totalVolume dltPct askBidRatio bidAskRatio
    min_vol th_ratio th_ratioR : ℚ) : PressureFlags :=
  if totalVolume ≥ min_vol then
    if delta > 0 then
      if fabs dltPct ≥ th_ratio ∨ askBidRatio ≥ th_ratioR then ⟨true, false⟩
      else ⟨false, false⟩
    else if delta < 0 then
      if fabs dltPct ≥ th_ratio ∨ bidAskRatio ≥ th_ratioR then ⟨false, true⟩
      else ⟨false, false⟩
    else ⟨false, false⟩
  else ⟨false, false⟩

/-- Pressure classification from raw ask/bid volumes, using the fallback
derivations of the source (delta = ask − bid, total = ask + bid, percentages
recomputed from the volumes when the subgraphs are unavailable, cross ratios
guarded against division by zero). -/
def classifyPressure (ask bid min_vol th_ratio th_ratioR : ℚ) : PressureFlags :=
  let delta := ask - bid
  let total := ask + bid
  let askPct := if total > 0 then ask / total else 0
  let bidPct := if total > 0 then bid / total else 0
  let dltPct := if total > 0 then delta / total else 0
  let bidAskRatio := if askPct > 0 then bidPct / askPct else 0
  let askBidRatio := if bidPct > 0 then askPct / bidPct else 0
  pressureDecision delta total dltPct askBidRatio bidAskRatio min_vol th_ratio th_ratioR

/-- Unified flag: 1 = bull, −1 = bear, 0 = neutral (`of_pressure` in the source). -/
def ofPressure (f : PressureFlags) : ℤ :=
  if f.bullish then 1 else if f.bearish then -1 else 0

/-! ## Replay cursor, Sequence Mode (MIA_Dumper_G3_Core.cpp, T&S section) -/

/-- One poll of the Sequence-Mode cursor over a buffer of sequence numbers
(lines 917–929): entries with sequence 0 are skipped, entries with sequence
≤ the high-water mark `S` are skipped, every other entry is processed and
`S` is set to its sequence. Returns the processed sequence values in order
and the final high-water mark. -/
def pollSeq (S : ℕ) : List ℕ → List ℕ × ℕ
  | [] => ([], S)
  | seq :: rest =>
      if seq = 0 then pollSeq S rest
      else if seq ≤ S then pollSeq S rest
      else
        let r := pollSeq seq rest
        (seq :: r.1, r.2)

/-- A poll request of one channel: a channel identity and the buffer of
sequence numbers it presents. -/
structure ChanPoll where
  chan : ℕ
  buf : List ℕ
deriving DecidableEq, Repr

/-- Process-wide run of successive polls sharing the single static
`g_LastSeq` cursor, as the source does (the cursor statics at lines 346–349
are not keyed by symbol). Returns the emitted (channel, sequence) records in
order. -/
def runPolls (S : ℕ) : List ChanPoll → List (ℕ × ℕ) × ℕ
  | [] => ([], S)
  | p :: rest =>
      let r := pollSeq S p.buf
      let o := runPolls r.2 rest
      (r.1.map (fun q => (p.chan, q)) ++ o.1, o.2)

/-- Records emitted for one channel in a run. -/
def emittedFor (c : ℕ) (out : List (ℕ × ℕ)) : List ℕ :=
  (out.filter (fun r => r.1 = c)).map (fun r => r.2)

/-! ## Change detection / deduplication (MIA_Dumper_G3_Core.cpp) -/

/-- Cached (timestamp, bar index) key, `struct LastKey` of the source. -/
structure LastKey where
  t : ℚ
  i : ℚ
deriving DecidableEq, Repr

/-- Default-constructed `LastKey` (t = 0, i = −1), as produced by the first
access to `g_LastKeyBySym[symKey]` for a never-seen key. -/
def freshLastKey : LastKey := ⟨0, -1⟩

/-- Cached basedata payload, `struct LastBasedata` of the source. -/
structure Basedata where
  c : ℚ
  o : ℚ
  h : ℚ
  l : ℚ
  bidvol : ℚ
  askvol : ℚ
  v : ℚ
deriving DecidableEq, Repr

/-- Default-constructed `LastBasedata` (all fields 0). -/
def freshBasedata : Basedata := ⟨0, 0, 0, 0, 0, 0, 0⟩

/-- Equality of (t, i) keys within the 1e-9 tolerance (`same_ti`). -/
def sameTI (lk : LastKey) (timestamp barIndex : ℚ) : Bool :=
  decide (fabs (lk.t - timestamp) < eps) && decide (fabs (lk.i - barIndex) < eps)

/-- ShouldWriteData (lines 102–114): returns whether the (t, i) key differs
from the cached one, and unconditionally overwrites the cached key with the
calling (t, i) pair. -/
def ShouldWriteData (lk : LastKey) (timestamp barIndex : ℚ) : Bool × LastKey :=
  (!sameTI lk timestamp barIndex, ⟨timestamp, barIndex⟩)

/-- Field-wise tolerant change detection of the basedata payload
(`payload_changed`, lines 435–439). -/
def basedataChanged (p cached : Basedata) : Bool :=
  has_changed p.c cached.c || has_changed p.o cached.o ||
  has_changed p.h cached.h || has_changed p.l cached.l ||
  has_changed p.bidvol cached.bidvol || has_changed p.askvol cached.askvol ||
  has_changed p.v cached.v

/-- Per-key cache of the basedata emission path: coordinate key plus cached
payload. -/
structure ChannelState where
  lk : LastKey
  lb : Basedata
deriving DecidableEq, Repr

/-- Cache state of a never-seen key. -/
def freshChannelState : ChannelState := ⟨freshLastKey, freshBasedata⟩

/-! ## Price normalization (MIA_Dumper_G3_Core.cpp, NormalizePx) -/

/-- Model of the host function `sc.RoundToTickSize`: round to the nearest multiple
of the tick size (identity on a degenerate tick, which the caller must
guard per the spec). -/
def roundToTick (x tick : ℚ) : ℚ :=
  if tick = 0 then x else round (x / tick) * tick

/-- NormalizePx (lines 129–145): divide by the multiplier (1 when the
multiplier is 0), halve the ×100 over-scale whenever the value exceeds
10000, round to tick, re-check the over-scale and round once more. -/
def NormalizePx (raw mult tick : ℚ) : ℚ :=
  let m := if mult = 0 then 1 else mult
  let px1 := raw / m
  let px2 := if px1 > 10000 then px1 / 100 else px1
  let px3 := roundToTick px2 tick
  let px4 := if px3 > 10000 then px3 / 100 else px3
  roundToTick px4 tick

/-! ## Previous-period aggregator
(MIA_Chart_Dumper_patched_VIX_NBCV_Quotes_Final_Corrected.cpp, PVWAP) -/

/-- Backward walk `while (s > 0 && !newDay(s)) s--` starting at the given
bar: the most recent bar at or below it satisfying the period-boundary
predicate, or bar 0 when none does. -/
def findBoundary (newDay : ℕ → Bool) : ℕ → ℕ
  | 0 => 0
  | n + 1 => if newDay (n + 1) then n + 1 else findBoundary newDay n

/-- Fold of the volume-at-price samples of one bar into the (sumV, sumPV, sumP2V)
accumulators. -/
def vapAccum (acc : ℚ × ℚ × ℚ) (samples : List (ℚ × ℕ)) : ℚ × ℚ × ℚ :=
  samples.foldl
    (fun a pv => (a.1 + pv.2, a.2.1 + pv.1 * pv.2, a.2.2 + pv.1 * pv.1 * pv.2))
    acc

/-- Bar indices `lo, lo+1, …, hi` (empty when hi < lo). -/
def barsFromTo (lo hi : ℕ) : List ℕ :=
  (List.range (hi + 1 - lo)).map (fun k => lo + k)

/-- Accumulation `for (b = prevStart; b <= prevEnd; ++b)` of the VAP sums
over a bar range. -/
def vapSums (vap : ℕ → List (ℚ × ℕ)) (lo hi : ℕ) : ℚ × ℚ × ℚ :=
  (barsFromTo lo hi).foldl (fun a b => vapAccum a (vap b)) (0, 0, 0)

/-- Scale-reconciliation heuristic `norm` of the source: versus a reference
current price, multiply a small value by 100 under a large reference, divide
a large value by 100 under a small reference, else leave unchanged. -/
def scaleReconcile (closeRef x : ℚ) : ℚ :=
  if closeRef > 1000 ∧ x > 0 ∧ x < 100 then x * 100
  else if closeRef < 100 ∧ x > 1000 then x / 100
  else x

/-- Same heuristic applied to the real-valued sigma. -/
noncomputable def scaleReconcileR (closeRef : ℚ) (x : ℝ) : ℝ :=
  if closeRef > 1000 ∧ x > 0 ∧ x < 100 then x * 100
  else if closeRef < 100 ∧ x > 1000 then x / 100
  else x

/-- Diagnostic kinds of the previous-period aggregator. -/
inductive PvwapDiagKind
  | insufficientHistory
  | noVolume
deriving DecidableEq, Repr

/-- Successful pvwap record: previous-period range, scale-reconciled
volume-weighted mean, clamped variance, and the reference close used for
reconciliation. -/
structure PvwapData where
  prevStart : ℕ
  prevEnd : ℕ
  pvwap : ℚ
  variance : ℚ
  closeRef : ℚ
deriving DecidableEq, Repr

/-- Outcome of one aggregation attempt: either a data record or exactly one
diagnostic. -/
inductive PvwapResult
  | data (rec : PvwapData)
  | diag (k : PvwapDiagKind)
deriving DecidableEq, Repr

/-- One aggregation attempt of scsf_MIA_Chart_Dumper_Patched_VIX_Daily
(lines 400–488): find `currStart` by walking back from the latest bar; if
`currStart ≤ 0` emit the insufficient-history diagnostic; else aggregate the
VAP sums over `[prevStart, currStart−1]`; with zero volume emit the
no-volume diagnostic, otherwise build the record with the reconciled mean
and the clamped variance (the variance uses the already-reconciled mean, as
the source does). -/
def pvwapStep (newDay : ℕ → Bool) (vap : ℕ → List (ℚ × ℕ)) (closeRef : ℚ)
    (last : ℕ) : PvwapResult :=
  let currStart := findBoundary newDay last
  if currStart = 0 then .diag .insufficientHistory
  else
    let prevEnd := currStart - 1
    let prevStart := findBoundary newDay prevEnd
    let s := vapSums vap prevStart prevEnd
    if s.1 > 0 then
      let pvwap := scaleReconcile closeRef (s.2.1 / s.1)
      let var0 := s.2.2 / s.1 - pvwap * pvwap
      .data ⟨prevStart, prevEnd, pvwap, if var0 < 0 then 0 else var0, closeRef⟩
    else .diag .noVolume

/-- Sigma of a pvwap record: square root of the clamped variance, then
scale-reconciled exactly as `norm(sigma)` in the source. -/
noncomputable def sigmaNormed (d : PvwapData) : ℝ :=
  scaleReconcileR d.closeRef (Real.sqrt d.variance)

/-- Upper k = 0.5 band (`up1 = pvwap + 0.5 * sigma`). -/
noncomputable def band1Up (d : PvwapData) : ℝ := d.pvwap + (1 / 2) * sigmaNormed d

/-- Lower k = 0.5 band (`dn1 = pvwap - 0.5 * sigma`). -/
noncomputable def band1Dn (d : PvwapData) : ℝ := d.pvwap - (1 / 2) * sigmaNormed d

/-- Example boundary predicate: only bar 2 starts a new trading day, so the
current period is [2, last] and no boundary precedes it. -/
def ndEx : ℕ → Bool := fun b => b = 2

/-- Example VAP histogram: the previous period (bars 0 and 1) holds exactly
the samples (price 100, volume 10) and (price 102, volume 10). -/
def vapEx : ℕ → List (ℚ × ℕ) := fun b =>
  if b = 0 then [(100, 10)] else if b = 1 then [(102, 10)] else []

/-- Basedata emission gate of scsf_MIA_Dumper_G3_Core (lines 431–455):
`(should_write && payload_changed) || bar_closed`, where `should_write`
comes from `ShouldWriteData` (which always updates the coordinate cache) and
the payload cache is rewritten only when the record is emitted. Returns the
emission decision and the new cache state. -/
def ShouldEmit (s : ChannelState) (t i : ℚ) (p : Basedata) (barClosed : Bool) :
    Bool × ChannelState :=
  let pc := basedataChanged p s.lb
  let w := ShouldWriteData s.lk t i
  let emit := (w.1 && pc) || barClosed
  (emit, ⟨w.2, if emit then p else s.lb⟩)

end MIA

namespace MIA

/-- C1: for all non-negative ask/bid volumes and all threshold settings, a
single evaluation of the pressure classifier never sets both flags; the
resulting state is exactly one of bullish, bearish, neutral. -/
theorem classifyPressure_exclusive (ask bid min_vol th_ratio th_ratioR : ℚ)
    (hask : 0 ≤ ask) (hbid : 0 ≤ bid) :
    ¬((classifyPressure ask bid min_vol th_ratio th_ratioR).bullish = true ∧
      (classifyPressure ask bid min_vol th_ratio th_ratioR).bearish = true) ∧
    ((classifyPressure ask bid min_vol th_ratio th_ratioR).bullish = true ∧
       (classifyPressure ask bid min_vol th_ratio th_ratioR).bearish = false ∨
     (classifyPressure ask bid min_vol th_ratio th_ratioR).bullish = false ∧
       (classifyPressure ask bid min_vol th_ratio th_ratioR).bearish = true ∨
     (classifyPressure ask bid min_vol th_ratio th_ratioR).bullish = false ∧
       (classifyPressure ask bid min_vol th_ratio th_ratioR).bearish = false) := by
  simp only [classifyPressure, pressureDecision]
  split_ifs <;> simp

/-- Witness for `classifyPressure_exclusive` at ask = 80, bid = 20,
min_vol = 50, th_ratio = 1/2, th_ratioR = 5/4. -/
theorem classifyPressure_exclusive_witness :
    ¬((classifyPressure 80 20 50 (1/2) (5/4)).bullish = true ∧
      (classifyPressure 80 20 50 (1/2) (5/4)).bearish = true) ∧
    ((classifyPressure 80 20 50 (1/2) (5/4)).bullish = true ∧
       (classifyPressure 80 20 50 (1/2) (5/4)).bearish = false ∨
     (classifyPressure 80 20 50 (1/2) (5/4)).bullish = false ∧
       (classifyPressure 80 20 50 (1/2) (5/4)).bearish = true ∨
     (classifyPressure 80 20 50 (1/2) (5/4)).bullish = false ∧
       (classifyPressure 80 20 50 (1/2) (5/4)).bearish = false) :=
  classifyPressure_exclusive 80 20 50 (1/2) (5/4) (by norm_num) (by norm_num)

/-- C3: from a fresh high-water mark, one poll over sequences
[5, 0, 5, 7, 3, 9] processes exactly 5, 7, 9 in that increasing order and
finishes with S = 9; the zeros, the duplicate 5 and the out-of-order 3 are
skipped. -/
theorem pollSeq_example : pollSeq 0 [5, 0, 5, 7, 3, 9] = ([5, 7, 9], 9) := by
  decide

/-- C2 counterexample: a payload that differs from the cache by far more
than epsilon is not emitted when the (t, i) coordinate is unchanged and the
bar is not closed, refuting the claimed disjunctive rule. -/
theorem shouldEmit_or_rule_counterexample :
    basedataChanged ⟨50, 0, 0, 0, 0, 0, 0⟩
        (ChannelState.mk ⟨100, 5⟩ freshBasedata).lb = true ∧
    (ShouldEmit ⟨⟨100, 5⟩, freshBasedata⟩ 100 5 ⟨50, 0, 0, 0, 0, 0, 0⟩ false).1 =
      false := by
  norm_num [ShouldEmit, ShouldWriteData, sameTI, basedataChanged, has_changed,
    fabs, eps, freshBasedata]

/-- C2 amended: the gate emits iff the (t, i) coordinate differs from the
cached one beyond epsilon AND some payload field differs beyond epsilon, OR
the bar has closed; in particular, for a call whose coordinate and payload
differ from the fresh-cache defaults, two consecutive identical
non-boundary calls return true then false. -/
theorem shouldEmit_rule (s : ChannelState) (t i : ℚ) (p : Basedata) (b : Bool)
    (hk : sameTI freshLastKey t i = false)
    (hp : basedataChanged p freshBasedata = true) :
    ((ShouldEmit s t i p b).1 = true ↔
      (sameTI s.lk t i = false ∧ basedataChanged p s.lb = true) ∨ b = true) ∧
    (ShouldEmit freshChannelState t i p false).1 = true ∧
    (ShouldEmit (ShouldEmit freshChannelState t i p false).2 t i p false).1 =
      false := by
  have h0 : sameTI ⟨t, i⟩ t i = true := by
    norm_num [sameTI, fabs, eps]
  refine ⟨?_, ?_, ?_⟩
  · simp [ShouldEmit, ShouldWriteData]
  · simp [ShouldEmit, ShouldWriteData, freshChannelState, hk, hp]
  · simp [ShouldEmit, ShouldWriteData, freshChannelState, h0]

/-- Witness for `shouldEmit_rule` at a seen key (100, 5) with fresh payload
cache, call coordinate (100, 5), payload with c = 50, no boundary. -/
theorem shouldEmit_rule_witness :
    ((ShouldEmit ⟨⟨100, 5⟩, freshBasedata⟩ 100 5 ⟨50, 0, 0, 0, 0, 0, 0⟩
        false).1 = true ↔
      (sameTI (ChannelState.mk ⟨100, 5⟩ freshBasedata).lk 100 5 = false ∧
        basedataChanged ⟨50, 0, 0, 0, 0, 0, 0⟩
          (ChannelState.mk ⟨100, 5⟩ freshBasedata).lb = true) ∨ false = true) ∧
    (ShouldEmit freshChannelState 100 5 ⟨50, 0, 0, 0, 0, 0, 0⟩ false).1 =
      true ∧
    (ShouldEmit
        (ShouldEmit freshChannelState 100 5 ⟨50, 0, 0, 0, 0, 0, 0⟩ false).2
        100 5 ⟨50, 0, 0, 0, 0, 0, 0⟩ false).1 = false :=
  shouldEmit_rule ⟨⟨100, 5⟩, freshBasedata⟩ 100 5 ⟨50, 0, 0, 0, 0, 0, 0⟩ false
    (by norm_num [sameTI, freshLastKey, fabs, eps])
    (by norm_num [basedataChanged, freshBasedata, has_changed, fabs, eps])

/-- C7 counterexample: a call that returns false (unchanged payload) still
moves the cached coordinate key to the calling (t, i) pair. -/
theorem shouldEmit_frame_counterexample :
    (ShouldEmit ⟨⟨100, 5⟩, freshBasedata⟩ 110 6 freshBasedata false).1 =
      false ∧
    (ShouldEmit ⟨⟨100, 5⟩, freshBasedata⟩ 110 6 freshBasedata false).2.lk ≠
      ⟨100, 5⟩ := by
  norm_num [ShouldEmit, ShouldWriteData, sameTI, basedataChanged, has_changed,
    fabs, eps, freshBasedata, LastKey.mk.injEq]

/-- C7 amended: when the gate returns false the cached payload is left
unchanged, but the cached coordinate is overwritten with the calling (t, i) pair
on every call; only the payload cache is updated exclusively on emission. -/
theorem shouldEmit_frame (s : ChannelState) (t i : ℚ) (p : Basedata) (b : Bool)
    (h : (ShouldEmit s t i p b).1 = false) :
    (ShouldEmit s t i p b).2.lb = s.lb ∧
    (ShouldEmit s t i p b).2.lk = ⟨t, i⟩ := by
  simp only [ShouldEmit, ShouldWriteData] at h ⊢
  simp [h]

/-- Witness for `shouldEmit_frame`: seen key (100, 5), call (110, 6) with a
payload equal to the cached one, no boundary. -/
theorem shouldEmit_frame_witness :
    (ShouldEmit ⟨⟨100, 5⟩, freshBasedata⟩ 110 6 freshBasedata false).2.lb =
      (ChannelState.mk ⟨100, 5⟩ freshBasedata).lb ∧
    (ShouldEmit ⟨⟨100, 5⟩, freshBasedata⟩ 110 6 freshBasedata false).2.lk =
      ⟨110, 6⟩ :=
  shouldEmit_frame ⟨⟨100, 5⟩, freshBasedata⟩ 110 6 freshBasedata false
    (by norm_num [ShouldEmit, ShouldWriteData, sameTI, basedataChanged,
      has_changed, fabs, eps, freshBasedata])

/-- C9: the replay cursor high-water mark is a process-wide static shared by
channels, so the records emitted for channel 2 in an interleaved run differ
from its isolated run: after channel 1 processes sequence 9, the channel-2 entry
with sequence 5 is silently skipped. -/
theorem sharedCursor_interference :
    emittedFor 2 (runPolls 0 [⟨1, [9]⟩, ⟨2, [5]⟩]).1 ≠
      emittedFor 2 (runPolls 0 [⟨2, [5]⟩]).1 := by
  decide

/-- Folding VAP samples never decreases the volume accumulator, since the
sample volumes are natural numbers. -/
theorem vapAccum_fst_le (samples : List (ℚ × ℕ)) :
    ∀ acc : ℚ × ℚ × ℚ, acc.1 ≤ (vapAccum acc samples).1 := by
  induction samples with
  | nil => intro acc; simp [vapAccum]
  | cons pv rest ih =>
      intro acc
      have h1 : acc.1 ≤ acc.1 + (pv.2 : ℚ) :=
        le_add_of_nonneg_right (by positivity)
      calc acc.1 ≤ acc.1 + (pv.2 : ℚ) := h1
        _ ≤ _ := by
              have := ih (acc.1 + pv.2, acc.2.1 + pv.1 * pv.2,
                acc.2.2 + pv.1 * pv.1 * pv.2)
              simpa [vapAccum] using this

/-- Folding whole bars never decreases the volume accumulator. -/
theorem foldVap_fst_le (vap : ℕ → List (ℚ × ℕ)) (bars : List ℕ) :
    ∀ acc : ℚ × ℚ × ℚ,
      acc.1 ≤ (bars.foldl (fun a b => vapAccum a (vap b)) acc).1 := by
  induction bars with
  | nil => intro acc; simp
  | cons b rest ih =>
      intro acc
      calc acc.1 ≤ (vapAccum acc (vap b)).1 := vapAccum_fst_le (vap b) acc
        _ ≤ _ := by simpa using ih (vapAccum acc (vap b))

/-- The accumulated previous-period volume is non-negative. -/
theorem vapSums_fst_nonneg (vap : ℕ → List (ℚ × ℕ)) (lo hi : ℕ) :
    0 ≤ (vapSums vap lo hi).1 := by
  simpa [vapSums] using foldVap_fst_le vap (barsFromTo lo hi) (0, 0, 0)

/-- C4: one aggregation attempt yields a data record iff a boundary bar was
found (currStart > 0) and the accumulated previous-period volume is
nonzero; with no boundary it yields exactly the insufficient-history
diagnostic, and with zero volume exactly the no-volume diagnostic. -/
theorem pvwapStep_emission (newDay : ℕ → Bool) (vap : ℕ → List (ℚ × ℕ))
    (closeRef : ℚ) (last : ℕ) :
    ((∃ rec, pvwapStep newDay vap closeRef last = .data rec) ↔
      0 < findBoundary newDay last ∧
      (vapSums vap (findBoundary newDay (findBoundary newDay last - 1))
         (findBoundary newDay last - 1)).1 ≠ 0) ∧
    (findBoundary newDay last = 0 →
      pvwapStep newDay vap closeRef last = .diag .insufficientHistory) ∧
    (0 < findBoundary newDay last →
      (vapSums vap (findBoundary newDay (findBoundary newDay last - 1))
         (findBoundary newDay last - 1)).1 = 0 →
      pvwapStep newDay vap closeRef last = .diag .noVolume) := by
  have hnn := vapSums_fst_nonneg vap
    (findBoundary newDay (findBoundary newDay last - 1))
    (findBoundary newDay last - 1)
  by_cases hc : findBoundary newDay last = 0
  · have hstep : pvwapStep newDay vap closeRef last =
        .diag .insufficientHistory := by
      simp only [pvwapStep]
      rw [if_pos hc]
    refine ⟨⟨?_, ?_⟩, fun _ => hstep, fun hpos _ => absurd hpos (by omega)⟩
    · rintro ⟨rec, hrec⟩
      rw [hstep] at hrec
      exact absurd hrec (by simp)
    · rintro ⟨hpos, -⟩
      exact absurd hpos (by omega)
  · by_cases hv : (vapSums vap
        (findBoundary newDay (findBoundary newDay last - 1))
        (findBoundary newDay last - 1)).1 > 0
    · have hstep : ∃ rec, pvwapStep newDay vap closeRef last = .data rec := by
        simp only [pvwapStep]
        rw [if_neg hc, if_pos hv]
        exact ⟨_, rfl⟩
      refine ⟨⟨fun _ => ⟨Nat.pos_of_ne_zero hc, ne_of_gt hv⟩, fun _ => hstep⟩,
        fun h0 => absurd h0 hc, fun _ h0 => ?_⟩
      rw [h0] at hv
      exact absurd hv (lt_irrefl 0)
    · have h0 : (vapSums vap
          (findBoundary newDay (findBoundary newDay last - 1))
          (findBoundary newDay last - 1)).1 = 0 :=
        le_antisymm (not_lt.mp hv) hnn
      have hstep : pvwapStep newDay vap closeRef last = .diag .noVolume := by
        simp only [pvwapStep]
        rw [if_neg hc, if_neg hv]
      refine ⟨⟨?_, ?_⟩, fun hz => absurd hz hc, fun _ _ => hstep⟩
      · rintro ⟨rec, hrec⟩
        rw [hstep] at hrec
        exact absurd hrec (by simp)
      · rintro ⟨-, hne⟩
        exact absurd h0 hne

/-- Witness for `pvwapStep_emission`: with boundary at bar 2 and the example
previous-period volume, a data record is emitted. -/
theorem pvwapStep_emission_witness :
    ∃ rec, pvwapStep ndEx vapEx 101 3 = .data rec :=
  (pvwapStep_emission ndEx vapEx 101 3).1.mpr
    ⟨by decide, by norm_num [vapSums, barsFromTo, vapAccum, vapEx,
      List.range_succ, findBoundary, ndEx]⟩

/-- C5: for the previous period holding exactly the samples (100, 10) and
(102, 10), with any reference close at most 1000 (normal scale), the
aggregator computes mean = 101, clamped variance = 1, sigma = 1, and the
k = 0.5 band [100.5, 101.5]. -/
theorem pvwap_concrete (c : ℚ) (h2 : c ≤ 1000) :
    pvwapStep ndEx vapEx c 3 = .data ⟨0, 1, 101, 1, c⟩ ∧
    sigmaNormed ⟨0, 1, 101, 1, c⟩ = 1 ∧
    band1Up ⟨0, 1, 101, 1, c⟩ = 101.5 ∧
    band1Dn ⟨0, 1, 101, 1, c⟩ = 100.5 := by
  have hv : vapSums vapEx 0 1 = (20, 2020, 204040) := by
    norm_num [vapSums, barsFromTo, vapAccum, vapEx, List.range_succ]
  have hb3 : findBoundary ndEx 3 = 2 := by decide
  have hb1 : findBoundary ndEx 1 = 0 := by decide
  have hsig : sigmaNormed ⟨0, 1, 101, 1, c⟩ = 1 := by
    simp only [sigmaNormed, scaleReconcileR]
    rw [show (((⟨0, 1, 101, 1, c⟩ : PvwapData).variance : ℚ) : ℝ) = 1 by
      norm_num]
    rw [Real.sqrt_one]
    rw [if_neg (by rintro ⟨hc, -⟩; exact absurd hc (by linarith)),
      if_neg (by rintro ⟨-, hx⟩; exact absurd hx (by norm_num))]
  refine ⟨?_, hsig, ?_, ?_⟩
  · simp only [pvwapStep, hb3]
    norm_num [hb1, hv, scaleReconcile]
  · simp only [band1Up, hsig]
    norm_num
  · simp only [band1Dn, hsig]
    norm_num

/-- Witness for `pvwap_concrete` at reference close 101. -/
theorem pvwap_concrete_witness :
    pvwapStep ndEx vapEx 101 3 = .data ⟨0, 1, 101, 1, 101⟩ ∧
    sigmaNormed ⟨0, 1, 101, 1, 101⟩ = 1 ∧
    band1Up ⟨0, 1, 101, 1, 101⟩ = 101.5 ∧
    band1Dn ⟨0, 1, 101, 1, 101⟩ = 100.5 :=
  pvwap_concrete 101 (by norm_num)

/-- C8: the scale-reconciliation step multiplies a value by 100 exactly when
the reference exceeds 1000 and the value lies in (0, 100), divides by 100
exactly when the reference is below 100 and the value exceeds 1000, and
leaves it unchanged otherwise; `pvwapStep` applies it to the mean and
`sigmaNormed` to the sigma, each with its own test. -/
theorem scaleReconcile_cases (ref x : ℚ) :
    (ref > 1000 → 0 < x → x < 100 → scaleReconcile ref x = x * 100) ∧
    (ref < 100 → x > 1000 → scaleReconcile ref x = x / 100) ∧
    (¬(ref > 1000 ∧ 0 < x ∧ x < 100) → ¬(ref < 100 ∧ x > 1000) →
      scaleReconcile ref x = x) := by
  refine ⟨?_, ?_, ?_⟩
  · intro h1 h2 h3
    simp only [scaleReconcile]
    rw [if_pos ⟨h1, h2, h3⟩]
  · intro h1 h2
    simp only [scaleReconcile]
    rw [if_neg (by rintro ⟨hc, -⟩; exact absurd hc (by linarith)),
      if_pos ⟨h1, h2⟩]
  · intro h1 h2
    simp only [scaleReconcile]
    rw [if_neg h1, if_neg h2]

/-- Witness for `scaleReconcile_cases` on all three branches. -/
theorem scaleReconcile_cases_witness :
    scaleReconcile 2000 50 = 50 * 100 ∧ scaleReconcile 50 2000 = 2000 / 100 ∧
    scaleReconcile 500 500 = 500 :=
  ⟨(scaleReconcile_cases 2000 50).1 (by norm_num) (by norm_num) (by norm_num),
   (scaleReconcile_cases 50 2000).2.1 (by norm_num) (by norm_num),
   (scaleReconcile_cases 500 500).2.2
     (by rintro ⟨h, -⟩; exact absurd h (by norm_num))
     (by rintro ⟨-, h⟩; exact absurd h (by norm_num))⟩

/-- C10 counterexample: boundary at bar 2 only, no boundary before it, and
an empty previous-period histogram: the aggregator does emit a diagnostic
(no-volume), refuting that no diagnostic can be emitted in this scenario. -/
theorem prevWalk_silent_counterexample :
    0 < findBoundary ndEx 3 ∧
    (∀ b, 0 < b → b < findBoundary ndEx 3 → ndEx b = false) ∧
    pvwapStep ndEx (fun _ => []) 101 3 = .diag .noVolume := by
  have hb3 : findBoundary ndEx 3 = 2 := by decide
  refine ⟨by decide, ?_, ?_⟩
  · intro b hb1 hb2
    rw [hb3] at hb2
    interval_cases b
    decide
  · simp only [pvwapStep, hb3]
    norm_num [findBoundary, ndEx, vapSums, barsFromTo, vapAccum,
      List.range_succ]

/-- C10 amended: with a current boundary but no boundary before it, the
prevStart walk terminates at bar 0, no insufficient-history diagnostic is
emitted, and whenever the range [0, currStart−1] has volume the aggregation
yields a data record over exactly that range (a no-volume diagnostic can
still arise from a volume-free range). -/
theorem prevWalk_no_boundary (newDay : ℕ → Bool) (vap : ℕ → List (ℚ × ℕ))
    (closeRef : ℚ) (last : ℕ)
    (h1 : 0 < findBoundary newDay last)
    (h2 : ∀ b, 0 < b → b < findBoundary newDay last → newDay b = false) :
    findBoundary newDay (findBoundary newDay last - 1) = 0 ∧
    pvwapStep newDay vap closeRef last ≠ .diag .insufficientHistory ∧
    ((vapSums vap 0 (findBoundary newDay last - 1)).1 ≠ 0 →
      ∃ rec, pvwapStep newDay vap closeRef last = .data rec ∧
        rec.prevStart = 0 ∧ rec.prevEnd = findBoundary newDay last - 1) := by
  have hzero : ∀ n, (∀ b, 0 < b → b ≤ n → newDay b = false) →
      findBoundary newDay n = 0 := by
    intro n
    induction n with
    | zero => intro _; rfl
    | succ m ih =>
        intro h
        have hm : newDay (m + 1) = false := h (m + 1) (Nat.succ_pos m) le_rfl
        have hunf : findBoundary newDay (m + 1) =
            if newDay (m + 1) then m + 1 else findBoundary newDay m := rfl
        rw [hunf, hm, if_neg Bool.false_ne_true]
        exact ih fun b hb1 hb2 => h b hb1 (le_trans hb2 (Nat.le_succ m))
  have hprev : findBoundary newDay (findBoundary newDay last - 1) = 0 :=
    hzero _ fun b hb1 hb2 => h2 b hb1 (by omega)
  have hc : ¬ findBoundary newDay last = 0 := by omega
  refine ⟨hprev, ?_, ?_⟩
  · simp only [pvwapStep, if_neg hc]
    split_ifs <;> simp
  · intro hvol
    have hpos : 0 < (vapSums vap 0 (findBoundary newDay last - 1)).1 :=
      lt_of_le_of_ne (vapSums_fst_nonneg vap 0 (findBoundary newDay last - 1))
        (Ne.symm hvol)
    simp only [pvwapStep, if_neg hc, hprev]
    rw [if_pos hpos]
    exact ⟨_, rfl, rfl, rfl⟩

/-- Witness for `prevWalk_no_boundary` on the example configuration. -/
theorem prevWalk_no_boundary_witness :
    findBoundary ndEx (findBoundary ndEx 3 - 1) = 0 ∧
    pvwapStep ndEx vapEx 101 3 ≠ .diag .insufficientHistory ∧
    ((vapSums vapEx 0 (findBoundary ndEx 3 - 1)).1 ≠ 0 →
      ∃ rec, pvwapStep ndEx vapEx 101 3 = .data rec ∧
        rec.prevStart = 0 ∧ rec.prevEnd = findBoundary ndEx 3 - 1) :=
  prevWalk_no_boundary ndEx vapEx 101 3 (by decide)
    (by
      intro b hb1 hb2
      have hb3 : findBoundary ndEx 3 = 2 := by decide
      rw [hb3] at hb2
      interval_cases b
      decide)

/-- C6 counterexample: p = 20000 is tick-aligned for tick 1/4 and mult = 1,
yet NormalizePx collapses it to 200, far outside tick/2 of p. -/
theorem normalize_roundtrip_counterexample :
    (20000 : ℚ) = (80000 : ℤ) * (1 / 4 : ℚ) ∧
    NormalizePx (20000 * 1) 1 (1 / 4) = 200 ∧
    ¬(fabs (NormalizePx (20000 * 1) 1 (1 / 4) - 20000) ≤ (1 / 4) / 2) := by
  refine ⟨by norm_num, ?_, ?_⟩ <;>
    norm_num [NormalizePx, roundToTick, round_eq, fabs]

/-- C6 amended: for tick-aligned p with p ≤ 10000 (below the over-scale
sanity threshold) and mult ∈ {1, 100}, NormalizePx(p·mult, mult, tick)
recovers p within tick/2. -/
theorem normalizePx_roundtrip (p tick mult : ℚ) (n : ℤ)
    (hp : p = (n : ℚ) * tick) (ht : 0 < tick) (hm : mult = 1 ∨ mult = 100)
    (hb : p ≤ 10000) :
    fabs (NormalizePx (p * mult) mult tick - p) ≤ tick / 2 := by
  have ht0 : tick ≠ 0 := ne_of_gt ht
  have hm0 : mult ≠ 0 := by rcases hm with h | h <;> rw [h] <;> norm_num
  have hr : roundToTick p tick = p := by
    rw [roundToTick, if_neg ht0, hp, mul_div_cancel_right₀ _ ht0,
      round_intCast]
  have hng : ¬ p > 10000 := by linarith
  simp only [NormalizePx, if_neg hm0]
  rw [mul_div_cancel_right₀ _ hm0, if_neg hng, hr, if_neg hng, hr]
  simp only [sub_self, fabs, lt_self_iff_false, if_false]
  positivity

/-- Witness for `normalizePx_roundtrip` at p = 100, tick = 1/4, mult = 100. -/
theorem normalizePx_roundtrip_witness :
    fabs (NormalizePx (100 * 100) 100 (1 / 4) - 100) ≤ (1 / 4) / 2 :=
  normalizePx_roundtrip 100 (1 / 4) 100 400 (by norm_num) (by norm_num)
    (Or.inr rfl) (by norm_num)

end MIA
